import Mathlib

/-
  Verification development for the netcap custom-encoder framework
  (package `encoder`, plus `types/ip4.go`).

  The Go source is shallowly embedded: the writer stack built by
  `CustomEncoder.Init` is represented as an inductive `Writer` tree whose
  constructors mirror the concrete writer objects (`os.File`, `chanWriter`,
  `bufio.Writer`, `gzip.Writer`, `delimited.Writer`, `csvWriter`,
  `AtomicDelimitedWriter`); `Init` mirrors the Go control flow line by line
  and returns `Except String EncState`, with `Except.error` standing for a
  Go `panic`.  `Encode` is modelled as a pure step on the observable state
  (record counter + list of written frames), parametrised by the handler's
  result and by whether the underlying frame write succeeds.
-/

namespace Netcap

/-- A writer object in the sink stack.  Each constructor records which
writer it wraps, mirroring the nesting built by `CustomEncoder.Init`:
`file` is an `os.File` opened at `path`, `chanW` the in-memory channel
writer, `buf` a `bufio.Writer` of the given size, `gzipW` a `gzip.Writer`,
`delim` a `delimited.Writer`, `csvW` a `csvWriter`, and `atomicDelim` the
`AtomicDelimitedWriter` wrapper. -/
inductive Writer where
  | file (path : String)
  | chanW
  | buf (size : Nat) (inner : Writer)
  | gzipW (inner : Writer)
  | delim (inner : Writer)
  | csvW (inner : Writer)
  | atomicDelim (inner : Writer)
deriving DecidableEq, Repr

/-- The writer-related fields of a `CustomEncoder` after `Init`, mirroring
the Go struct: every private writer field starts as `none` (Go `nil`) and
is set by `Init` exactly where the source assigns it. -/
structure EncState where
  name : String
  compress : Bool
  buffer : Bool
  csv : Bool
  out : String
  file : Option Writer := none
  bWriter : Option Writer := none
  gWriter : Option Writer := none
  dWriter : Option Writer := none
  aWriter : Option Writer := none
  cWriter : Option Writer := none
  csvWriter : Option Writer := none
deriving DecidableEq, Repr

/-- Modelled from the spec: `filepath.Join(out, name)` — the output path is
"the configured output directory joined with the encoder name". -/
def joinPath (dir name : String) : String := dir ++ "/" ++ name

/-- Modelled from the spec: `CreateFile(base, ext)` (helper absent from the
given sources) opens the file at `base` "plus an extension selected by
mode". -/
def CreateFile (base ext : String) : Writer := Writer.file (base ++ ext)

/-- Shallow embedding of `CustomEncoder.Init`.  `blockSize` stands for the
package-level `BlockSize` constant (its numeric value is configured outside
the given sources).  `Except.error` models the Go `panic` on the
channel-mode configuration conflict.  The control flow mirrors the source:
the `csv` branch returns before the conflict check; in the non-csv branch
a `nil` file reaching `bufio.NewWriterSize`/`gzip.NewWriter` is represented
by `Option.getD` with a dummy file (those paths are unreachable because the
conflict check fires first). -/
def Init (blockSize : Nat) (name : String) (buffer compress csv : Bool)
    (out : String) (writeChan : Bool) : Except String EncState :=
  let e0 : EncState := { name := name, compress := compress, buffer := buffer,
                         csv := csv, out := out }
  if csv then
    let f := if compress then CreateFile (joinPath out name) ".csv.gz"
             else CreateFile (joinPath out name) ".csv"
    let e1 := { e0 with file := some f }
    if buffer then
      let bw := Writer.buf blockSize f
      if compress then
        let gw := Writer.gzipW bw
        .ok { e1 with bWriter := some bw, gWriter := some gw,
                      csvWriter := some (Writer.csvW gw) }
      else
        .ok { e1 with bWriter := some bw, csvWriter := some (Writer.csvW bw) }
    else
      if compress then
        let gw := Writer.gzipW f
        .ok { e1 with gWriter := some gw, csvWriter := some (Writer.csvW gw) }
      else
        .ok { e1 with csvWriter := some (Writer.csvW f) }
  else
  if writeChan && buffer || writeChan && compress then
    .error "buffering or compression cannot be activated when running using writeChan"
  else
  let e1 :=
    if writeChan then { e0 with cWriter := some Writer.chanW }
    else if compress then
      { e0 with file := some (CreateFile (joinPath out name) ".ncap.gz") }
    else
      { e0 with file := some (CreateFile (joinPath out name) ".ncap") }
  if buffer then
    let bw := Writer.buf blockSize (e1.file.getD (Writer.file ""))
    let e2 := { e1 with bWriter := some bw }
    if compress then
      let gw := Writer.gzipW bw
      let dw := Writer.delim gw
      .ok { e2 with gWriter := some gw, dWriter := some dw,
                    aWriter := some (Writer.atomicDelim dw) }
    else
      let dw := Writer.delim bw
      .ok { e2 with dWriter := some dw, aWriter := some (Writer.atomicDelim dw) }
  else
    if compress then
      let gw := Writer.gzipW (e1.file.getD (Writer.file ""))
      let dw := Writer.delim gw
      .ok { e1 with gWriter := some gw, dWriter := some dw,
                    aWriter := some (Writer.atomicDelim dw) }
    else
      if writeChan then
        let dw := Writer.delim Writer.chanW
        .ok { e1 with dWriter := some dw, aWriter := some (Writer.atomicDelim dw) }
      else
        let dw := Writer.delim (e1.file.getD (Writer.file ""))
        .ok { e1 with dWriter := some dw, aWriter := some (Writer.atomicDelim dw) }

/-- Observable state mutated by `CustomEncoder.Encode`: the atomic record
counter `numRecords` and the sequence of complete frames appended to the
output stream, with frame payloads of type `α` (the serialized protobuf
message). -/
structure RunState (α : Type) where
  numRecords : Int
  frames : List α
deriving DecidableEq, Repr

/-- Outcome of one `Encode` call: normal return `ok` (error value `nil`),
`writeErr` when `aWriter.PutProto` returns an error that `Encode`
propagates, and `nilDeref` when `e.aWriter` is `nil` and the method call
dereferences it (Go runtime panic). -/
inductive EncodeOutcome where
  | ok
  | writeErr
  | nilDeref
deriving DecidableEq, Repr

/-- Shallow embedding of `CustomEncoder.Encode`.  `decoded` is the result
of `e.Handler(p)`; `aWriterPresent` is whether `Init` set `e.aWriter`;
`writeOk` is whether the underlying frame write succeeds.  Mirrors the
source: a `nil` handler result returns `nil` immediately; otherwise the
counter is incremented first (`atomic.AddInt64`) and then
`e.aWriter.PutProto(decoded)` runs.  Modelled from the spec:
`AtomicDelimitedWriter.PutProto` (absent from the given sources) appends
exactly one complete frame on success and "no partial frame is ever left
on the stream on error". -/
def Encode {α : Type} (aWriterPresent : Bool) (decoded : Option α)
    (writeOk : Bool) (s : RunState α) : RunState α × EncodeOutcome :=
  match decoded with
  | none => (s, EncodeOutcome.ok)
  | some m =>
    let s1 : RunState α := { s with numRecords := s.numRecords + 1 }
    if aWriterPresent then
      if writeOk then ({ s1 with frames := s1.frames ++ [m] }, EncodeOutcome.ok)
      else (s1, EncodeOutcome.writeErr)
    else (s1, EncodeOutcome.nilDeref)

/-- Mirrors the exclude loop body of `InitCustomEncoders`: scan the slice
for the first encoder whose name matches, splice it out, and `break`; a
name with no match leaves the slice unchanged. -/
def removeFirst (name : String) : List String → List String
  | [] => []
  | e :: rest => if name = e then rest else e :: removeFirst name rest

/-- Mirrors the include-validation loop of `InitCustomEncoders`: walk the
include tokens in order, skip empty ones, fail (`invalidEncoder`, a fatal
unknown-encoder error) at the first non-empty name absent from
`allEncoderNames`, and otherwise collect the names put into `inMap`. -/
def collectIncludes (allNames : List String) : List String → Except String (List String)
  | [] => .ok []
  | name :: rest =>
    if name = "" then collectIncludes allNames rest
    else if allNames.contains name then
      (collectIncludes allNames rest).map (name :: ·)
    else .error name

/-- Mirrors the exclude loop of `InitCustomEncoders`: walk the exclude
tokens in order, skip empty ones, fail at the first non-empty name absent
from `allEncoderNames`, and otherwise remove the first matching encoder
from the current selection. -/
def applyExcludes (allNames : List String) (sel : List String) :
    List String → Except String (List String)
  | [] => .ok sel
  | name :: rest =>
    if name = "" then applyExcludes allNames sel rest
    else if allNames.contains name then
      applyExcludes allNames (removeFirst name sel) rest
    else .error name

/-- Shallow embedding of the selection algorithm of `InitCustomEncoders`
(the part that computes which encoders stay active).  `catalogue` is
`customEncoderSlice` (as names, in registration order), `allNames` is
`allEncoderNames` (which also holds layer-encoder names), and `inc`/`ex`
are the comma-split include and exclude token lists.  The include filter
runs only when `len(in) > 0 && in[0] != ""`. -/
def selectEncoders (catalogue allNames inc ex : List String) :
    Except String (List String) :=
  match inc with
  | first :: _ =>
    if first = "" then applyExcludes allNames catalogue ex
    else
      match collectIncludes allNames inc with
      | .error n => .error n
      | .ok inMap => applyExcludes allNames (catalogue.filter (inMap.contains ·)) ex
  | [] => applyExcludes allNames catalogue ex

/-- The selection algorithm exactly as claim C3 words it: the catalogue
filtered to names in the include-list, or the full catalogue when the
include-list is empty or consists of a single empty string; every include
or exclude name not in the catalogue of known encoder names is a fatal
unknown-encoder error; each exclude name removes the first matching
entry. -/
def selectClaim (catalogue allNames inc ex : List String) :
    Except String (List String) :=
  let phase1 : Except String (List String) :=
    if inc = [] ∨ inc = [""] then .ok catalogue
    else
      match inc.find? (fun n => ! allNames.contains n) with
      | some bad => .error bad
      | none => .ok (catalogue.filter (inc.contains ·))
  match phase1 with
  | .error n => .error n
  | .ok sel =>
    match ex.find? (fun n => ! allNames.contains n) with
    | some bad => .error bad
    | none => .ok (ex.foldl (fun s n => removeFirst n s) sel)

/-- The amended selection claim: the full catalogue when the include-list
is empty or its first token is the empty string (later tokens then ignored
and unvalidated); otherwise the catalogue filtered to the non-empty
include names, after validating each non-empty include name (first unknown
is fatal); then each non-empty exclude name is validated in order and
removes the first matching entry, empty exclude tokens being skipped. -/
def selectAmended (catalogue allNames inc ex : List String) :
    Except String (List String) :=
  let phase1 : Except String (List String) :=
    if inc.headD "" = "" then .ok catalogue
    else
      match (inc.filter (· ≠ "")).find? (fun n => ! allNames.contains n) with
      | some bad => .error bad
      | none => .ok (catalogue.filter ((inc.filter (· ≠ "")).contains ·))
  match phase1 with
  | .error n => .error n
  | .ok sel => applyExcludes allNames sel ex

/-- The output-file extension the spec assigns to each (csv, compress)
mode: `.csv`, `.csv.gz`, `.ncap`, `.ncap.gz`. -/
def modeExt (csv compress : Bool) : String :=
  if csv then (if compress then ".csv.gz" else ".csv")
  else (if compress then ".ncap.gz" else ".ncap")

/-- The writer stack the spec describes, assembled in its vocabulary:
start from the sink (the output file, or the channel writer in non-csv
channel mode), optionally wrap a buffered writer sized by the block-size
constant, optionally wrap a compressing writer, and top with the framer
(non-csv) or the csv writer. -/
def expectedStack (bs : Nat) (name : String) (buffer compress csv : Bool)
    (out : String) (wc : Bool) : Writer :=
  let base := if !csv && wc then Writer.chanW
              else Writer.file (joinPath out name ++ modeExt csv compress)
  let l1 := if buffer then Writer.buf bs base else base
  let l2 := if compress then Writer.gzipW l1 else l1
  if csv then Writer.csvW l2 else Writer.delim l2

/-- One teardown action performed by `CustomEncoder.Destroy`, in source
order: the optional `deinit` hook, `CloseGzipWriters(e.gWriter)`,
`FlushWriters(e.bWriter)`, and the final `CloseFile`. -/
inductive TeardownStep where
  | deinitHook
  | closeGzip
  | flushBuffer
  | closeFile
deriving DecidableEq, Repr

/-- Shallow embedding of `CustomEncoder.Destroy`, recording the sequence
of teardown actions it performs.  `hasDeinit` is whether `e.deinit` is
set, `deinitErr` whether the hook returns an error (in which case the
source panics, modelled as `Except.error`).  Modelled from the spec:
`CloseFile` (absent from the given sources) "closes the underlying file
and returns its final name and size", here `fileName` and `fileSize`. -/
def Destroy (hasDeinit deinitErr compress buffer : Bool)
    (fileName : String) (fileSize : Int) :
    Except String (List TeardownStep × String × Int) :=
  match (if hasDeinit then
           (if deinitErr then Except.error "deinit hook failed"
            else Except.ok [TeardownStep.deinitHook])
         else Except.ok ([] : List TeardownStep)) with
  | .error e => .error e
  | .ok t1 =>
    let t2 := if compress then t1 ++ [TeardownStep.closeGzip] else t1
    let t3 := if buffer then t2 ++ [TeardownStep.flushBuffer] else t2
    .ok (t3 ++ [TeardownStep.closeFile], fileName, fileSize)

/-- Shallow embedding of `CustomEncoder.GetChan`, which returns
`e.cWriter.Chan()`.  Modelled from the spec: `chanWriter.Chan` (absent
from the given sources) reads the channel field through the receiver, so
calling it on a `nil` `*chanWriter` is a Go nil-pointer dereference,
modelled as `Except.error`; on a live channel writer it exposes the byte
channel, modelled by returning the channel writer. -/
def GetChan (e : EncState) : Except String Writer :=
  match e.cWriter with
  | none => .error "runtime error: invalid memory address or nil pointer dereference"
  | some w => .ok w

/-- One lowercase hexadecimal (or decimal, for `n < 10`) digit character,
as produced by Go's `encoding/hex` alphabet `0123456789abcdef`. -/
def hexDigit (n : Nat) : Char :=
  if n < 10 then Char.ofNat (48 + n) else Char.ofNat (87 + n)

/-- Model of Go's `hex.EncodeToString` (standard library, external to this
repository): each byte becomes its high nibble then its low nibble in the
lowercase hex alphabet.  Bytes are `Nat`s below 256. -/
def hexEncodeToString (bs : List Nat) : String :=
  String.mk ((bs.map fun b => [hexDigit (b / 16 % 16), hexDigit (b % 16)]).flatten)

/-- Digits of `n` written in base 10, most significant first, prepended to
`acc`; the recursion mirrors repeated division by 10. -/
def natToDecAux : Nat → List Char → List Char
  | 0, acc => acc
  | n + 1, acc => natToDecAux ((n + 1) / 10) (hexDigit ((n + 1) % 10) :: acc)
termination_by n _ => n
decreasing_by
  simp_wf
  exact Nat.lt_succ_of_le (Nat.le_of_lt_succ (Nat.div_lt_self (Nat.succ_pos n) (by norm_num)))

/-- Decimal rendering of a natural number. -/
def natToDec (n : Nat) : String :=
  if n = 0 then "0" else String.mk (natToDecAux n [])

/-- Decimal rendering of an integer (sign then digits). -/
def intToDec (i : Int) : String :=
  (if i < 0 then "-" else "") ++ natToDec i.natAbs

/-- Modelled from the spec: the `types` package helper `formatInt32`
(absent from the given sources) renders an integer field "as a string",
i.e. in decimal. -/
def formatInt32 (i : Int) : String := intToDec i

/-- Modelled from the spec: the `types` package helper `formatTimestamp`
(absent from the given sources); timestamps are carried as strings already
in "a fixed textual format". -/
def formatTimestamp (ts : String) : String := ts

/-- Modelled from the spec: the `types` package helper `filter` (absent
from the given sources); the spec's text rows consist of the listed fields
rendered as strings, so the helper passes the rendered fields through. -/
def filterFields (fields : List String) : List String := fields

/-- Left-pad a string with zero characters to width `w`. -/
def padZeros (w : Nat) (s : String) : String :=
  String.mk (List.replicate (w - s.length) '0') ++ s

/-- Modelled from the spec: `strconv.FormatFloat(v, 'f', 6, 64)` (Go
standard library, applied to the `float64` field `PayloadEntropy`), which
prints the value "fixed to 6 decimal places".  Binary floating point is
not embedded; the value is represented by `millionths`, its rounding to
an integer count of millionths, from which the rendering is sign, integer
part, a dot, and the fractional part zero-padded to exactly six digits. -/
def formatFloat6 (millionths : Int) : String :=
  (if millionths < 0 then "-" else "") ++
    natToDec (millionths.natAbs / 1000000) ++ "." ++
    padZeros 6 (natToDec (millionths.natAbs % 1000000))

/-- The `IPv4Option` record (`types` package): option type, length, and
raw option bytes. -/
structure IPv4Option where
  OptionType : Int
  OptionLength : Int
  OptionData : List Nat
deriving DecidableEq, Repr

/-- The fields of the `IPv4` audit record used by its CSV rendering.  The
`float64` field `PayloadEntropy` is represented by
`PayloadEntropyMillionths`, its rounding to millionths (see
`formatFloat6`). -/
structure IPv4 where
  Timestamp : String
  Version : Int
  IHL : Int
  TOS : Int
  Length : Int
  Id : Int
  Flags : Int
  FragOffset : Int
  TTL : Int
  Protocol : Int
  Checksum : Int
  SrcIP : String
  DstIP : String
  Padding : List Nat
  Options : List IPv4Option
  PayloadEntropyMillionths : Int
  PayloadSize : Int
deriving DecidableEq, Repr

/-- A `strings.Builder` that has received a sequence of `WriteString`
calls yields the concatenation of the pieces in order. -/
def buildString (parts : List String) : String :=
  parts.foldl (· ++ ·) ""

/-- Shallow embedding of `IPv4Option.ToString` (`types/ip4.go`):
begin marker, option type, separator, option length, separator, hex-encoded
option data, end marker, assembled through a `strings.Builder`.  The
`types` package marker constants `Begin`, `Separator`, `End` are absent
from the given sources, so they are parameters `B`, `S`, `E`. -/
def IPv4Option.render (B S E : String) (i : IPv4Option) : String :=
  buildString [B, formatInt32 i.OptionType, S, formatInt32 i.OptionLength,
               S, hexEncodeToString i.OptionData, E]

/-- Shallow embedding of `IPv4.CSVRecord` (`types/ip4.go`): the option
sub-records are rendered and joined with the empty separator, and the
seventeen fields are rendered in source order and passed through the
field filter. -/
def IPv4.CSVRecord (B S E : String) (i : IPv4) : List String :=
  let opts := i.Options.map (IPv4Option.render B S E)
  filterFields
    [ formatTimestamp i.Timestamp,
      formatInt32 i.Version,
      formatInt32 i.IHL,
      formatInt32 i.TOS,
      formatInt32 i.Length,
      formatInt32 i.Id,
      formatInt32 i.Flags,
      formatInt32 i.FragOffset,
      formatInt32 i.TTL,
      formatInt32 i.Protocol,
      formatInt32 i.Checksum,
      i.SrcIP,
      i.DstIP,
      hexEncodeToString i.Padding,
      String.join opts,
      formatFloat6 i.PayloadEntropyMillionths,
      formatInt32 i.PayloadSize ]

/-- C1: a call to `CustomEncoder.Encode` whose handler returns a non-nil
decoded record and whose frame write succeeds writes exactly one frame
through the atomic delimited writer and increases the record counter by
exactly 1; a call whose handler returns nil leaves the counter and the
frame stream unchanged and returns no error. -/
theorem encode_one_frame_one_increment {α : Type} (m : α) (s s₂ : RunState α)
    (aw wOk : Bool) :
    Encode true (some m) true s
      = ({ numRecords := s.numRecords + 1, frames := s.frames ++ [m] },
         EncodeOutcome.ok)
    ∧ Encode aw (none : Option α) wOk s₂ = (s₂, EncodeOutcome.ok) := by
  exact ⟨rfl, rfl⟩

/-- C2, counterexample: with the handler returning a record and the frame
write failing, `Encode` returns the write error yet the record counter has
moved from 0 to 1 — the claim says the counter stays unchanged on write
failure. -/
theorem encode_failed_write_still_counted :
    Encode (α := Nat) true (some 0) false ⟨0, []⟩
      = (⟨1, []⟩, EncodeOutcome.writeErr) := by
  exact rfl

/-- C2, amended: the counter increment happens before the frame write, so
when the frame write returns an error `Encode` returns that error with no
frame appended but with the record counter already increased by 1 (a
record whose write failed is still counted). -/
theorem encode_increment_precedes_write {α : Type} (m : α) (s : RunState α) :
    Encode true (some m) false s
      = ({ s with numRecords := s.numRecords + 1 }, EncodeOutcome.writeErr) := by
  exact rfl

/-- C5, counterexample: `Init` with `csv = true`, `writeChan = true` and
`buffer = true` succeeds, although the claim says every configuration
combining `writeChan` with `buffer` is rejected as a fatal configuration
error. -/
theorem init_conflict_unreachable_with_csv :
    (Init 1 "x" true false true "o" true).isOk = true := by
  exact rfl

/-- C5, amended: `Init` aborts with the fatal channel-mode configuration
error exactly when `csv = false` and `writeChan = true` and `buffer` or
`compress` is set; every other combination (in particular any combination
with `csv = true`) is accepted. -/
theorem init_rejects_iff (bs : Nat) (name : String) (buffer compress csv : Bool)
    (out : String) (wc : Bool) :
    (Init bs name buffer compress csv out wc).isOk = false
      ↔ (csv = false ∧ wc = true ∧ (buffer = true ∨ compress = true)) := by
  cases buffer <;> cases compress <;> cases csv <;> cases wc <;>
    simp [Init, Except.isOk, Except.toBool]

/-- C9: when `Init` is called with `csv = true` it returns before the
channel-mode branch for every value of `writeChan`, `buffer`, `compress`:
no channel writer is created, a `.csv` or `.csv.gz` file is always opened,
and the channel-conflict panic never fires. -/
theorem init_csv_ignores_writeChan (bs : Nat) (name : String)
    (buffer compress : Bool) (out : String) (wc : Bool) :
    ∃ e, Init bs name buffer compress true out wc = .ok e
      ∧ e.cWriter = none
      ∧ e.file = some (Writer.file (joinPath out name
          ++ (if compress then ".csv.gz" else ".csv"))) := by
  cases buffer <;> cases compress <;> exact ⟨_, rfl, rfl, rfl⟩

/-- The encoder state `Init` produces for a plain binary file
configuration (no buffer, no compression, no csv, no channel), used to
instantiate theorems whose hypothesis is an `Init` equation. -/
def fileWitState : EncState :=
  { name := "x", compress := false, buffer := false, csv := false, out := "o",
    file := some (Writer.file "o/x.ncap"),
    dWriter := some (Writer.delim (Writer.file "o/x.ncap")),
    aWriter := some (Writer.atomicDelim (Writer.delim (Writer.file "o/x.ncap"))) }

/-- The encoder state `Init` produces for the channel-mode configuration
(no buffer, no compression, no csv, `writeChan = true`). -/
def chanWitState : EncState :=
  { name := "x", compress := false, buffer := false, csv := false, out := "o",
    cWriter := some Writer.chanW,
    dWriter := some (Writer.delim Writer.chanW),
    aWriter := some (Writer.atomicDelim (Writer.delim Writer.chanW)) }

/-- C6: for every configuration `Init` accepts, the top of the writer
stack (the csv writer in csv mode, else the framer under the atomic
wrapper) wraps exactly the layers sink → optional buffered writer (sized
by the block-size constant) → optional compressing writer with no gaps,
and whenever a file is the sink its path is the output directory joined
with the encoder name plus the extension selected by (csv, compress). -/
theorem init_stack_order (bs : Nat) (name : String) (buffer compress csv : Bool)
    (out : String) (wc : Bool) (e : EncState)
    (h : Init bs name buffer compress csv out wc = .ok e) :
    (if csv then
        e.csvWriter = some (expectedStack bs name buffer compress csv out wc)
      else
        e.aWriter = some (Writer.atomicDelim
          (expectedStack bs name buffer compress csv out wc)))
    ∧ e.file = (if csv || !wc then
          some (Writer.file (joinPath out name ++ modeExt csv compress))
        else none) := by
  cases buffer <;> cases compress <;> cases csv <;> cases wc <;>
    simp [Init] at h <;> subst h <;>
    constructor <;> simp [expectedStack, modeExt, CreateFile]

/-- C6, witness: the plain binary file configuration instantiates the
stack-order theorem. -/
theorem init_stack_order_witness :
    fileWitState.aWriter
        = some (Writer.atomicDelim (expectedStack 1 "x" false false false "o" false))
    ∧ fileWitState.file
        = some (Writer.file (joinPath "o" "x" ++ modeExt false false)) :=
  init_stack_order 1 "x" false false false "o" false fileWitState rfl

/-- C7: `Destroy` performs exactly the teardown steps deinit hook (when
set; a hook error aborts), compressor close (only when compression is
configured), buffer flush (only when buffering is configured), then file
close, in that order, with unconfigured steps absent rather than failing,
and returns the file name and final size reported by the file close. -/
theorem destroy_order (hasDeinit deinitErr compress buffer : Bool)
    (n : String) (sz : Int) :
    Destroy hasDeinit deinitErr compress buffer n sz
      = if hasDeinit && deinitErr then .error "deinit hook failed"
        else .ok ((if hasDeinit then [TeardownStep.deinitHook] else [])
            ++ (if compress then [TeardownStep.closeGzip] else [])
            ++ (if buffer then [TeardownStep.flushBuffer] else [])
            ++ [TeardownStep.closeFile], n, sz) := by
  cases hasDeinit <;> cases deinitErr <;> cases compress <;> cases buffer <;> rfl

/-- C10: for every encoder state produced by `Init`, `GetChan` yields a
usable channel exactly when `Init` ran with `writeChan = true` and
`csv = false`; on any encoder not initialized in channel mode the channel
writer is nil and `GetChan` is a nil-pointer dereference. -/
theorem getChan_of_init (bs : Nat) (name : String) (buffer compress csv : Bool)
    (out : String) (wc : Bool) (e : EncState)
    (h : Init bs name buffer compress csv out wc = .ok e) :
    ((GetChan e).isOk = true ↔ (wc = true ∧ csv = false))
    ∧ ((wc = false ∨ csv = true) →
        GetChan e
          = .error "runtime error: invalid memory address or nil pointer dereference") := by
  cases buffer <;> cases compress <;> cases csv <;> cases wc <;>
    simp [Init] at h <;> subst h <;>
    constructor <;> simp [GetChan, Except.isOk, Except.toBool]

/-- C10, witness: the channel-mode configuration instantiates the
`GetChan` theorem. -/
theorem getChan_of_init_witness :
    ((GetChan chanWitState).isOk = true ↔ (true = true ∧ false = false))
    ∧ ((true = false ∨ false = true) →
        GetChan chanWitState
          = .error "runtime error: invalid memory address or nil pointer dereference") :=
  getChan_of_init 1 "x" false false false "o" true chanWitState rfl

/-- C4, code bug: with `csv = true` and `compress = true`, `Init` opens
`<out>/<name>.csv.gz` and builds the csv writer, but leaves `aWriter` nil;
since `Encode` unconditionally writes through `aWriter.PutProto`, a
handler that returns a record leads to a nil dereference and no text row
is ever appended, contradicting the claimed one-row-per-record content. -/
theorem csv_mode_encode_writes_no_rows :
    Init 1 "ipv4" false true true "out" false
      = .ok { name := "ipv4", compress := true, buffer := false, csv := true,
              out := "out",
              file := some (Writer.file "out/ipv4.csv.gz"),
              gWriter := some (Writer.gzipW (Writer.file "out/ipv4.csv.gz")),
              csvWriter := some (Writer.csvW
                (Writer.gzipW (Writer.file "out/ipv4.csv.gz"))),
              aWriter := none }
    ∧ Encode (α := Nat) false (some 7) true ⟨0, []⟩
        = (⟨1, []⟩, EncodeOutcome.nilDeref) :=
  ⟨rfl, rfl⟩

/-- The include-validation loop collects exactly the non-empty include
tokens, failing at the first non-empty token unknown to the name
catalogue. -/
theorem collectIncludes_eq (allNames : List String) (l : List String) :
    collectIncludes allNames l =
      (((l.filter (· ≠ "")).find? (fun n => ! allNames.contains n)).elim
        (Except.ok (l.filter (· ≠ ""))) Except.error) := by
  induction l with
  | nil => rfl
  | cons a l ih =>
    by_cases ha : a = ""
    · subst ha
      simpa [collectIncludes, List.filter_cons] using ih
    · have hkeep : List.filter (· ≠ "") (a :: l) = a :: List.filter (· ≠ "") l := by
        simp [List.filter_cons, ha]
      by_cases hk : a ∈ allNames
      · have hfind : List.find? (fun n => ! allNames.contains n)
            (a :: List.filter (· ≠ "") l)
            = List.find? (fun n => ! allNames.contains n)
                (List.filter (· ≠ "") l) := by
          rw [List.find?_cons_of_neg]
          simp [hk]
        rw [show collectIncludes allNames (a :: l)
              = (collectIncludes allNames l).map (a :: ·) by
            simp [collectIncludes, ha, hk], ih, hkeep, hfind]
        cases hf : List.find? (fun n => ! allNames.contains n)
            (List.filter (· ≠ "") l) <;>
          simp [hf, Except.map]
      · have hfind : List.find? (fun n => ! allNames.contains n)
            (a :: List.filter (· ≠ "") l) = some a := by
          rw [List.find?_cons_of_pos]
          simp [hk]
        rw [hkeep, hfind]
        simp [collectIncludes, ha, hk]

/-- C3, counterexample: with catalogue and known names `["A", "B"]`, an
include-list `["", "A"]` (neither empty nor a single empty string) and an
empty exclude-list, the code keeps the full catalogue and validates
nothing, while the claim demands the catalogue filtered to `"A"` with
every include name validated. -/
theorem select_first_empty_include_counterexample :
    selectEncoders ["A", "B"] ["A", "B"] ["", "A"] [] = .ok ["A", "B"]
    ∧ selectClaim ["A", "B"] ["A", "B"] ["", "A"] [] = .error "" :=
  ⟨rfl, rfl⟩

/-- C3, amended: the active set is the full catalogue when the
include-list is empty or its first token is empty (later tokens then
ignored and unvalidated); otherwise the catalogue filtered to the
non-empty include names, each validated in order against the known-name
catalogue (first unknown fatal); then each non-empty exclude token is
validated and removes the first matching entry, empty exclude tokens
being skipped. -/
theorem select_eq_amended (catalogue allNames inc ex : List String) :
    selectEncoders catalogue allNames inc ex
      = selectAmended catalogue allNames inc ex := by
  cases inc with
  | nil => rfl
  | cons first rest =>
    by_cases h : first = ""
    · subst h; rfl
    · simp only [selectEncoders, selectAmended, List.headD, if_neg h]
      rw [collectIncludes_eq]
      cases hf : ((first :: rest).filter (· ≠ "")).find?
          (fun n => ! allNames.contains n) <;>
        simp [hf]

/-- A digit character produced by `hexDigit` below 10 is a decimal digit. -/
theorem hexDigit_isDigit {d : Nat} (h : d < 10) : (hexDigit d).isDigit = true := by
  interval_cases d <;> decide

/-- Rendering a number below `10 ^ k` prepends at most `k` characters. -/
theorem natToDecAux_length_le (k : Nat) :
    ∀ n acc, n < 10 ^ k → (natToDecAux n acc).length ≤ k + acc.length := by
  induction k with
  | zero =>
    intro n acc h
    have h0 : n = 0 := by simpa using h
    subst h0
    simp [natToDecAux]
  | succ k ih =>
    intro n acc h
    match n with
    | 0 => simp [natToDecAux]
    | m + 1 =>
      rw [natToDecAux]
      have hdiv : (m + 1) / 10 < 10 ^ k := by
        apply Nat.div_lt_of_lt_mul
        calc m + 1 < 10 ^ (k + 1) := h
          _ = 10 * 10 ^ k := by ring
      have := ih ((m + 1) / 10) (hexDigit ((m + 1) % 10) :: acc) hdiv
      simp only [List.length_cons] at this
      omega

/-- The decimal rendering of `n < 10 ^ k` (with `k ≥ 1`) has at most `k`
characters. -/
theorem natToDec_length_le {n k : Nat} (hk : 1 ≤ k) (h : n < 10 ^ k) :
    (natToDec n).length ≤ k := by
  by_cases h0 : n = 0
  · subst h0
    simpa [natToDec] using hk
  · have := natToDecAux_length_le k n [] h
    simpa [natToDec, h0] using this

/-- Every character the decimal renderer prepends is a decimal digit. -/
theorem natToDecAux_all_digits (n : Nat) :
    ∀ acc, (∀ c ∈ acc, c.isDigit = true) →
      ∀ c ∈ natToDecAux n acc, c.isDigit = true := by
  induction n using Nat.strong_induction_on with
  | _ n ih =>
    intro acc hacc
    match n with
    | 0 => simpa [natToDecAux] using hacc
    | m + 1 =>
      rw [natToDecAux]
      apply ih ((m + 1) / 10) (Nat.div_lt_self (Nat.succ_pos m) (by norm_num))
      intro c hc
      rcases List.mem_cons.mp hc with h | h
      · subst h
        exact hexDigit_isDigit (Nat.mod_lt _ (by norm_num))
      · exact hacc c h

/-- Every character of a decimal rendering is a decimal digit. -/
theorem natToDec_all_digits (n : Nat) :
    ∀ c ∈ (natToDec n).toList, c.isDigit = true := by
  by_cases h0 : n = 0
  · subst h0
    intro c hc
    simp [natToDec] at hc
    subst hc
    decide
  · intro c hc
    apply natToDecAux_all_digits n [] (by simp)
    simpa [natToDec, h0] using hc

/-- Zero-padding a string no longer than the width yields exactly the
width. -/
theorem padZeros_length {w : Nat} {s : String} (h : s.length ≤ w) :
    (padZeros w s).length = w := by
  simp [padZeros, String.length_append]
  omega

/-- The `'f'`-format rendering with precision 6 consists of an integer
part, a dot, and a fractional part of exactly six decimal digits. -/
theorem formatFloat6_six_decimals (m : Int) :
    ∃ ip fr : String, formatFloat6 m = ip ++ "." ++ fr ∧ fr.length = 6
      ∧ fr.toList.all Char.isDigit = true := by
  refine ⟨(if m < 0 then "-" else "") ++ natToDec (m.natAbs / 1000000),
          padZeros 6 (natToDec (m.natAbs % 1000000)), rfl, ?_, ?_⟩
  · apply padZeros_length
    apply natToDec_length_le (by norm_num)
    have : m.natAbs % 1000000 < 1000000 := Nat.mod_lt _ (by norm_num)
    calc m.natAbs % 1000000 < 1000000 := this
      _ ≤ 10 ^ 6 := by norm_num
  · rw [List.all_eq_true]
    intro c hc
    have : c ∈ (List.replicate (6 - (natToDec (m.natAbs % 1000000)).length) '0')
        ++ (natToDec (m.natAbs % 1000000)).toList := by
      simpa [padZeros, String.data_append] using hc
    rcases List.mem_append.mp this with h | h
    · rw [List.eq_of_mem_replicate h]
      decide
    · exact natToDec_all_digits _ c h

/-- C8: in the IPv4 text-row rendering, the `Padding` slot is the hex
encoding of the padding bytes, the `Options` slot is the concatenation of
the rendered option sub-records, each option renders as begin marker,
option type, separator, option length, separator, hex-encoded option
data, end marker, and the `PayloadEntropy` slot carries exactly six
decimal places. -/
theorem ipv4_csv_rendering (B S E : String) (i : IPv4) :
    (IPv4.CSVRecord B S E i)[13]? = some (hexEncodeToString i.Padding)
    ∧ (IPv4.CSVRecord B S E i)[14]?
        = some (String.join (i.Options.map (IPv4Option.render B S E)))
    ∧ (∀ o : IPv4Option, IPv4Option.render B S E o
        = B ++ formatInt32 o.OptionType ++ S ++ formatInt32 o.OptionLength
            ++ S ++ hexEncodeToString o.OptionData ++ E)
    ∧ ∃ ip fr : String, (IPv4.CSVRecord B S E i)[15]? = some (ip ++ "." ++ fr)
        ∧ fr.length = 6 ∧ fr.toList.all Char.isDigit = true := by
  refine ⟨rfl, rfl, ?_, ?_⟩
  · intro o
    simp [IPv4Option.render, buildString]
  · obtain ⟨ip, fr, heq, hlen, hdig⟩ :=
      formatFloat6_six_decimals i.PayloadEntropyMillionths
    refine ⟨ip, fr, ?_, hlen, hdig⟩
    rw [show (IPv4.CSVRecord B S E i)[15]?
          = some (formatFloat6 i.PayloadEntropyMillionths) from rfl, heq]

end Netcap
